import Mathlib

/-!
Verification development for the object-detection web app.

The definitions below are a shallow embedding of the server-inference
frame pipeline of `src/frontend/components/ServerInferenceCamera.tsx`
and of the `FrameQueue` given in `src/report.md`.  Timestamps are
epoch milliseconds modelled as `Int` (JS numbers; differences may be
negative), the browser environment (clock readings, fetch outcomes)
is passed in explicitly, and React state updates are modelled as
explicit state passing.
-/

namespace ObjDet

/-- A detection record (ServerInferenceCamera.tsx, lines 15-22).
Scores and coordinates are numbers; the claims treat them as opaque
values, embedded here as rationals. -/
structure Detection where
  label : String
  score : Rat
  xmin : Rat
  ymin : Rat
  xmax : Rat
  ymax : Rat
deriving DecidableEq

/-- The parsed server response (ServerInferenceCamera.tsx, lines 24-30).
`detections` is an `Option` because the TypeScript annotation is not
checked at runtime: a structurally valid JSON body may lack the
`detections` field, which line 193 (`result && result.detections`)
explicitly guards against. -/
structure ServerResponse where
  frame_id : String
  capture_ts : Int
  recv_ts : Int
  inference_ts : Int
  detections : Option (List Detection)
deriving DecidableEq

/-- The possible outcomes of one `sendFrameToServer` call, as seen from
the JS runtime: the canvas encode may throw, `fetch` may reject
(connection failure or timeout), the HTTP status may be non-OK
(line 126 throws), `response.json()` may reject, or a response is
parsed. -/
inductive FetchOutcome where
  | encodeError
  | networkError
  | timeout
  | httpError (status : Nat)
  | parseError
  | ok (resp : ServerResponse)
deriving DecidableEq

/-- The per-frame failure modes of a `sendFrameToServer` call: every
outcome other than a parsed response. -/
def FetchOutcome.isFailure : FetchOutcome → Bool
  | .ok _ => false
  | _ => true

/-- The component state touched by the pipeline: the four latency
`useState` cells (lines 33-36) and the `frameCounter` ref (line 40). -/
structure CameraState where
  networkLatency : Int
  serverLatency : Int
  inferenceTime : Int
  totalTime : Int
  frameCounter : Nat
deriving DecidableEq

/-- Initial component state: all latency cells start at 0, the frame
counter at 0. -/
def initialCameraState : CameraState := ⟨0, 0, 0, 0, 0⟩

/-- Decimal rendering of a natural number, as JS renders the counter in
the template literal on line 107. -/
def natToDecimal (n : Nat) : String :=
  if n = 0 then "0" else String.mk ((Nat.digits 10 n).reverse.map Nat.digitChar)

/-- The frame identifier of line 107: the string `frame_` followed by the
current counter value in decimal. -/
def frameIdOf (n : Nat) : String := "frame_" ++ natToDecimal n

/-- The request body built on lines 110-116. -/
structure Payload where
  frame_id : String
  capture_ts : Int
  image_data : String
  model_name : String
  resolution : List Nat
deriving DecidableEq

/-- Result of one `sendFrameToServer` call: the JS return value
(`null` = `none`), the payload that went over the wire (if the fetch
was reached), and the updated component state. -/
structure SendResult where
  response : Option ServerResponse
  sentPayload : Option Payload
  state : CameraState
deriving DecidableEq

/-- `networkLat` of line 134. -/
def networkLatOf (r : ServerResponse) : Int := r.recv_ts - r.capture_ts

/-- `serverLat` of line 135. -/
def serverLatOf (r : ServerResponse) : Int := r.inference_ts - r.recv_ts

/-- `totalLat` of line 136: computed from `Date.now()` taken after the
response is parsed, but assigned to a local constant that is never
stored or used afterwards. -/
def totalLatOf (r : ServerResponse) (now : Int) : Int := now - r.capture_ts

/-- The payload of lines 110-116, built from the pre-increment counter
value and `Date.now()` taken on line 108. -/
def mkPayload (st : CameraState) (image modelName : String)
    (resolution : List Nat) (captureNow : Int) : Payload :=
  ⟨frameIdOf st.frameCounter, captureNow, image, modelName, resolution⟩

/-- The post-increment of `frameCounter.current++` on line 107. -/
def bumpCounter (st : CameraState) : CameraState :=
  { st with frameCounter := st.frameCounter + 1 }

/-- The state updates of lines 138-140: `setNetworkLatency(networkLat)`,
`setServerLatency(serverLat)`, `setInferenceTime(serverLat)`.  Nothing
stores `totalLat`. -/
def recordLatencies (st : CameraState) (r : ServerResponse) : CameraState :=
  { st with
      networkLatency := networkLatOf r
      serverLatency := serverLatOf r
      inferenceTime := serverLatOf r }

/-- `sendFrameToServer` (lines 103-147).  The whole body is wrapped in
`try/catch` with `return null` in the `catch` arm, so every failure
mode produces `none`.  `captureNow` is the `Date.now()` of line 108,
`respNow` the `Date.now()` of line 133 (used only for the dead
`totalLat` computation, see `totalLatOf`). -/
def sendFrameToServer (st : CameraState) (image modelName : String)
    (resolution : List Nat) (captureNow : Int) (outcome : FetchOutcome)
    (respNow : Int) : SendResult :=
  match outcome with
  | .encodeError => ⟨none, none, st⟩
  | .networkError =>
      ⟨none, some (mkPayload st image modelName resolution captureNow), bumpCounter st⟩
  | .timeout =>
      ⟨none, some (mkPayload st image modelName resolution captureNow), bumpCounter st⟩
  | .httpError _ =>
      ⟨none, some (mkPayload st image modelName resolution captureNow), bumpCounter st⟩
  | .parseError =>
      ⟨none, some (mkPayload st image modelName resolution captureNow), bumpCounter st⟩
  | .ok r =>
      ⟨some r, some (mkPayload st image modelName resolution captureNow),
        recordLatencies (bumpCounter st) r⟩

/-- `runServerInference` (lines 191-196): send the frame, and only when
the result is non-null and has a `detections` field, redraw the
overlay (`drawDetections` clears the canvas and paints exactly the new
detections); otherwise the overlay is left as it was. -/
def runServerInference (st : CameraState) (overlay : List Detection)
    (image modelName : String) (resolution : List Nat) (captureNow : Int)
    (outcome : FetchOutcome) (respNow : Int) : CameraState × List Detection :=
  let r := sendFrameToServer st image modelName resolution captureNow outcome respNow
  match r.response with
  | some resp =>
      match resp.detections with
      | some ds => (r.state, ds)
      | none => (r.state, overlay)
  | none => (r.state, overlay)

/-- The environment of one iteration of the `runLiveDetection` while
loop: `startTime` is the `Date.now()` of line 205, `captureNow` that of
line 108, `respNow` that of line 133, `endNow` that of line 209;
`captureOk` is the truthiness check on the capture context (line 207). -/
structure IterationInput where
  startTime : Int
  image : String
  captureNow : Int
  outcome : FetchOutcome
  respNow : Int
  endNow : Int
  captureOk : Bool
deriving DecidableEq

/-- One iteration body of the `runLiveDetection` loop (lines 204-213):
run server inference, then `setTotalTime(Date.now() - startTime)`. -/
def runIteration (st : CameraState) (overlay : List Detection)
    (modelName : String) (resolution : List Nat) (inp : IterationInput) :
    CameraState × List Detection :=
  let r := runServerInference st overlay inp.image modelName resolution
    inp.captureNow inp.outcome inp.respNow
  ({ r.1 with totalTime := inp.endNow - inp.startTime }, r.2)

/-- The `runLiveDetection` while loop (lines 204-213) run over a script
of per-iteration environments, with no external clearing of the
`liveDetection` flag.  Returns the final state, the final overlay, and
the number of iterations that performed inference; `if (!ctx) return`
on line 207 exits the loop. -/
def runLive (modelName : String) (resolution : List Nat) :
    CameraState → List Detection → List IterationInput →
    CameraState × List Detection × Nat
  | st, ov, [] => (st, ov, 0)
  | st, ov, inp :: rest =>
      if inp.captureOk then
        let r := runIteration st ov modelName resolution inp
        let t := runLive modelName resolution r.1 r.2 rest
        (t.1, t.2.1, t.2.2 + 1)
      else (st, ov, 0)

/-- The component state touched by the visibility handler (lines 56-66):
the `liveDetection` ref and the `SSR` flag that unmounts the webcam. -/
structure UiState where
  liveDetection : Bool
  ssr : Bool
deriving DecidableEq

/-- `handleVisibilityChange` (lines 57-63): when the document is hidden
the `liveDetection` ref is cleared (the while loop exits at its next
check); in every case `SSR` is set to `document.hidden`, which unmounts
the webcam while hidden and remounts it when visible. -/
def handleVisibilityChange (st : UiState) (documentHidden : Bool) : UiState :=
  { liveDetection := if documentHidden then false else st.liveDetection
    ssr := documentHidden }

/-! ## Event trace of the live-detection loop

For the in-flight and ordering claims, one loop iteration is abstracted
to the sequence of observable events it performs, in program order:
the frame capture (line 206), the request dispatch (line 118), the
settling of that request (resolution or rejection of the awaited
promise chain), and the overlay draw (line 194) when it happens. -/

inductive PipelineEvent where
  | captured (i : Nat)
  | requested (i : Nat)
  | settled (i : Nat)
  | drew (i : Nat)
deriving DecidableEq

/-- Whether an outcome leads to `drawDetections` being called
(line 193: non-null result with a `detections` field). -/
def drawsOverlay (o : FetchOutcome) : Bool :=
  match o with
  | .ok r => r.detections.isSome
  | _ => false

/-- The events of iteration `i`: the capture always happens; when the
encode succeeds a request is dispatched and — because the loop `await`s
it — settles before anything later; the draw happens per
`drawsOverlay`. -/
def iterationEvents (i : Nat) (inp : IterationInput) : List PipelineEvent :=
  PipelineEvent.captured i ::
    (match inp.outcome with
     | .encodeError => []
     | o => [PipelineEvent.requested i, PipelineEvent.settled i] ++
         (if drawsOverlay o then [PipelineEvent.drew i] else []))

/-- The event trace of the loop starting at iteration index `i`. -/
def liveTraceFrom (i : Nat) : List IterationInput → List PipelineEvent
  | [] => []
  | inp :: rest =>
      if inp.captureOk then iterationEvents i inp ++ liveTraceFrom (i + 1) rest
      else []

/-- The event trace of a full `runLiveDetection` run. -/
def liveTrace (inputs : List IterationInput) : List PipelineEvent :=
  liveTraceFrom 0 inputs

/-- Running count of in-flight requests along a trace, returning the
maximum ever attained (`cur` = currently in flight, `mx` = maximum so
far). -/
def maxInFlightAux : Nat → Nat → List PipelineEvent → Nat
  | _, mx, [] => mx
  | cur, mx, e :: es =>
      match e with
      | .requested _ => maxInFlightAux (cur + 1) (max mx (cur + 1)) es
      | .settled _ => maxInFlightAux (cur - 1) mx es
      | _ => maxInFlightAux cur mx es

/-- Maximum number of simultaneously in-flight requests along a trace. -/
def maxInFlight (es : List PipelineEvent) : Nat := maxInFlightAux 0 0 es

/-- The iteration indices whose results were drawn, in trace order. -/
def drawnIndices (es : List PipelineEvent) : List Nat :=
  es.filterMap fun e =>
    match e with
    | .drew i => some i
    | _ => none

/-! ## FrameQueue of src/report.md (lines 115-126)

```python
class FrameQueue:
    def __init__(self, max_size=5):
        self.queue = deque(maxlen=max_size)
        self.dropped_frames = 0

    def add_frame(self, frame):
        if len(self.queue) >= self.max_size:
            self.queue.popleft()  # Drop oldest frame
            self.dropped_frames += 1
        self.queue.append(frame)
```

`__init__` never assigns `self.max_size` (only the deque maxlen), so
the attribute lookup in `add_frame` raises `AttributeError`; this is
embedded by making `max_size` an `Option Nat` that `init` leaves
`none`.  Errors raised by Python are embedded as `Except.error`. -/

structure FrameQueue (α : Type) where
  queue : List α
  maxlen : Nat
  max_size : Option Nat
  dropped_frames : Nat
deriving DecidableEq

/-- `FrameQueue.__init__` as written: the deque gets `maxlen`, the
drop counter starts at 0, and `self.max_size` is never assigned. -/
def FrameQueue.init {α : Type} (max_size : Nat) : FrameQueue α :=
  ⟨[], max_size, none, 0⟩

/-- `FrameQueue.__init__` with the evidently intended
`self.max_size = max_size` assignment added (report.md describes the
class as a drop-oldest bounded queue). -/
def FrameQueue.initIntended {α : Type} (max_size : Nat) : FrameQueue α :=
  ⟨[], max_size, some max_size, 0⟩

/-- `deque.append` on a deque with a `maxlen`: when appending exceeds
the bound, the leftmost element is silently discarded. -/
def dequeAppend {α : Type} (maxlen : Nat) (l : List α) (f : α) : List α :=
  let l2 := l ++ [f]
  if maxlen < l2.length then l2.tail else l2

/-- `FrameQueue.add_frame` as written.  The first component of a
successful result is the Python return value: the function body has no
`return`, so it always returns `None` — never the dropped frame. -/
def FrameQueue.add_frame {α : Type} (q : FrameQueue α) (f : α) :
    Except String (Option α × FrameQueue α) :=
  match q.max_size with
  | none => .error "AttributeError: FrameQueue object has no attribute max_size"
  | some m =>
      if m ≤ q.queue.length then
        match q.queue with
        | [] => .error "IndexError: pop from an empty deque"
        | _ :: t =>
            .ok (none, { q with
              queue := dequeAppend q.maxlen t f
              dropped_frames := q.dropped_frames + 1 })
      else
        .ok (none, { q with queue := dequeAppend q.maxlen q.queue f })

/-- A sequence of `add_frame` calls with no intervening reads. -/
def offerAll {α : Type} : FrameQueue α → List α → Except String (FrameQueue α)
  | q, [] => .ok q
  | q, f :: fs =>
      match q.add_frame f with
      | .error e => .error e
      | .ok r => offerAll r.2 fs

/-! ## SpecFrameQueue

Modelled from the spec: the repository contains no `takeLatest`
implementation (report.md's `FrameQueue` has only `add_frame`), so the
§4.1 contract — `offer(frame) -> droppedFrameOrNil`,
`takeLatest() -> frameOrNil`, capacity `N`, drop-oldest on full,
LIFO read with skipped frames counted as implicit drops, nil on
empty — is modelled here from the spec words alone. -/

structure SpecFrameQueue (α : Type) where
  queue : List α
  capacity : Nat
  dropped : Nat
deriving DecidableEq

/-- Modelled from the spec: an empty queue of the given capacity. -/
def SpecFrameQueue.empty {α : Type} (capacity : Nat) : SpecFrameQueue α :=
  ⟨[], capacity, 0⟩

/-- Modelled from the spec: `offer` never blocks; on a full queue the
oldest frame is evicted, returned to the caller, and counted as a
drop; the new frame is then enqueued. -/
def SpecFrameQueue.offer {α : Type} (q : SpecFrameQueue α) (f : α) :
    Option α × SpecFrameQueue α :=
  if q.capacity ≤ q.queue.length then
    match q.queue with
    | [] => (none, { q with queue := [f] })
    | old :: rest => (some old, { q with queue := rest ++ [f], dropped := q.dropped + 1 })
  else (none, { q with queue := q.queue ++ [f] })

/-- Modelled from the spec: `takeLatest` removes and returns the most
recently enqueued frame; every frame skipped by the LIFO pop is counted
as an implicit drop; on an empty queue it returns nil without error. -/
def SpecFrameQueue.takeLatest {α : Type} (q : SpecFrameQueue α) :
    Option α × SpecFrameQueue α :=
  match q.queue.getLast? with
  | none => (none, q)
  | some f => (some f, { q with queue := [], dropped := q.dropped + (q.queue.length - 1) })

/-! ## Helper lemmas -/

theorem digitChar_inj_lt :
    ∀ a, a < 10 → ∀ b, b < 10 → Nat.digitChar a = Nat.digitChar b → a = b := by decide

theorem map_digitChar_inj :
    ∀ {l1 l2 : List Nat}, (∀ x ∈ l1, x < 10) → (∀ x ∈ l2, x < 10) →
      l1.map Nat.digitChar = l2.map Nat.digitChar → l1 = l2 := by
  intro l1
  induction l1 with
  | nil =>
      intro l2 _ _ h
      cases l2 with
      | nil => rfl
      | cons b t => simp at h
  | cons a t ih =>
      intro l2 h1 h2 h
      cases l2 with
      | nil => simp at h
      | cons b t2 =>
          simp only [List.map_cons, List.cons.injEq] at h
          have hab : a = b :=
            digitChar_inj_lt a (h1 a (List.mem_cons_self a t)) b
              (h2 b (List.mem_cons_self b t2)) h.1
          have ht : t = t2 :=
            ih (fun x hx => h1 x (List.mem_cons_of_mem a hx))
              (fun x hx => h2 x (List.mem_cons_of_mem b hx)) h.2
          rw [hab, ht]

theorem natToDecimal_ne_zero_str {n : Nat} (hn : n ≠ 0) : natToDecimal n ≠ "0" := by
  unfold natToDecimal
  rw [if_neg hn]
  intro h
  have hd : (Nat.digits 10 n).reverse.map Nat.digitChar = ['0'] := congrArg String.data h
  have hlen : (Nat.digits 10 n).length = 1 := by
    have := congrArg List.length hd
    simpa using this
  obtain ⟨d, hd1⟩ := List.length_eq_one.mp hlen
  rw [hd1] at hd
  simp only [List.reverse_cons, List.reverse_nil, List.nil_append, List.map_cons,
    List.map_nil, List.cons.injEq, and_true] at hd
  have hdlt : d < 10 := Nat.digits_lt_base (by norm_num) (hd1 ▸ List.mem_cons_self d [])
  have hd0 : d = 0 := digitChar_inj_lt d hdlt 0 (by norm_num) (by rw [hd]; rfl)
  have : n = 0 := by
    have := Nat.ofDigits_digits 10 n
    rw [hd1, hd0] at this
    simpa [Nat.ofDigits] using this.symm
  exact hn this

theorem natToDecimal_inj : Function.Injective natToDecimal := by
  intro m n h
  by_cases hm : m = 0 <;> by_cases hn : n = 0
  · rw [hm, hn]
  · exact absurd h.symm (by rw [hm]; exact natToDecimal_ne_zero_str hn)
  · exact absurd h (by rw [hn]; exact natToDecimal_ne_zero_str hm)
  · unfold natToDecimal at h
    rw [if_neg hm, if_neg hn] at h
    have hd : (Nat.digits 10 m).reverse.map Nat.digitChar
        = (Nat.digits 10 n).reverse.map Nat.digitChar := congrArg String.data h
    have hrev : (Nat.digits 10 m).reverse = (Nat.digits 10 n).reverse :=
      map_digitChar_inj
        (fun x hx => Nat.digits_lt_base (by norm_num) (List.mem_reverse.mp hx))
        (fun x hx => Nat.digits_lt_base (by norm_num) (List.mem_reverse.mp hx)) hd
    have : Nat.digits 10 m = Nat.digits 10 n := by
      have := congrArg List.reverse hrev
      simpa using this
    exact Nat.digits_inj_iff.mp this

theorem frameIdOf_inj : Function.Injective frameIdOf := by
  intro m n h
  apply natToDecimal_inj
  apply String.ext
  unfold frameIdOf at h
  have hd := congrArg String.data h
  rw [String.data_append, String.data_append] at hd
  exact List.append_cancel_left hd

theorem offerAll_append {α : Type} (q : FrameQueue α) (as bs : List α) :
    offerAll q (as ++ bs)
      = match offerAll q as with
        | .error e => .error e
        | .ok q2 => offerAll q2 bs := by
  induction as generalizing q with
  | nil => simp [offerAll]
  | cons a t ih =>
      simp only [List.cons_append, offerAll]
      cases h : q.add_frame a with
      | error e => rfl
      | ok r => exact ih r.2

theorem dequeAppend_no_trim {α : Type} (m : Nat) (l : List α) (f : α)
    (h : l.length + 1 ≤ m) : dequeAppend m l f = l ++ [f] := by
  have hc : ¬ (m < (l ++ [f]).length) := by
    simp only [List.length_append, List.length_cons, List.length_nil]
    omega
  simp only [dequeAppend]
  rw [if_neg hc]

theorem offerAll_fill {α : Type} (m : Nat) (fs : List α) (q : List α) (d : Nat)
    (h : q.length + fs.length ≤ m) :
    offerAll (⟨q, m, some m, d⟩ : FrameQueue α) fs = .ok ⟨q ++ fs, m, some m, d⟩ := by
  induction fs generalizing q with
  | nil => simp [offerAll]
  | cons f t ih =>
      have hq : ¬ (m ≤ q.length) := by
        simp only [List.length_cons] at h
        omega
      have htrim : dequeAppend m q f = q ++ [f] := by
        apply dequeAppend_no_trim
        simp only [List.length_cons] at h
        omega
      simp only [offerAll, FrameQueue.add_frame, if_neg hq, htrim]
      rw [ih (q ++ [f]) (by simp only [List.length_append, List.length_cons,
        List.length_nil, List.length_cons] at h ⊢; omega)]
      simp

/-! ## Claim theorems -/

/-- C1 (counterexample): the recorded total time is not
`observed_now - capture_ts`.  With loop start at 990, `capture_ts`
1000, `recv_ts` 1050, `inference_ts` 1090 and both observation clocks
at 1120, the code records `totalTime = 1120 - 990 = 130`, not the
claimed `1120 - 1000 = 120`; network and server latency are recorded as
claimed. -/
theorem total_time_not_capture_anchored_cex :
    (runIteration initialCameraState [] "yolov5n" [640, 640]
        ⟨990, "img", 1000, .ok ⟨"frame_0", 1000, 1050, 1090, some []⟩,
          1120, 1120, true⟩).1.totalTime = 130 ∧
    (runIteration initialCameraState [] "yolov5n" [640, 640]
        ⟨990, "img", 1000, .ok ⟨"frame_0", 1000, 1050, 1090, some []⟩,
          1120, 1120, true⟩).1.totalTime ≠ 1120 - 1000 ∧
    (runIteration initialCameraState [] "yolov5n" [640, 640]
        ⟨990, "img", 1000, .ok ⟨"frame_0", 1000, 1050, 1090, some []⟩,
          1120, 1120, true⟩).1.networkLatency = 50 ∧
    (runIteration initialCameraState [] "yolov5n" [640, 640]
        ⟨990, "img", 1000, .ok ⟨"frame_0", 1000, 1050, 1090, some []⟩,
          1120, 1120, true⟩).1.serverLatency = 40 := by
  decide

/-- C1 (amended): on a successful response the code records
`network_ms = recv_ts - capture_ts` and
`server_ms = inference_ts - recv_ts` (the latter also as the inference
time); `observed_now - capture_ts` is computed (`totalLatOf`) but never
recorded — the recorded total time is `endNow - startTime`, anchored at
the start of the loop iteration, not at capture. -/
theorem latency_recording_amended (st : CameraState) (ov : List Detection)
    (modelName : String) (res : List Nat) (inp : IterationInput)
    (r : ServerResponse) (h : inp.outcome = .ok r) :
    (runIteration st ov modelName res inp).1.networkLatency = r.recv_ts - r.capture_ts ∧
    (runIteration st ov modelName res inp).1.serverLatency = r.inference_ts - r.recv_ts ∧
    (runIteration st ov modelName res inp).1.inferenceTime = r.inference_ts - r.recv_ts ∧
    (runIteration st ov modelName res inp).1.totalTime = inp.endNow - inp.startTime ∧
    totalLatOf r inp.respNow = inp.respNow - r.capture_ts := by
  cases hr : r.detections <;>
    simp [runIteration, runServerInference, sendFrameToServer, h, hr,
      recordLatencies, bumpCounter, networkLatOf, serverLatOf, totalLatOf]

/-- C1 (witness): the amended theorem at the claim numbers
`capture_ts = 1000`, `recv_ts = 1050`, `inference_ts = 1090`,
`now = 1120`, with the iteration started at 1000. -/
theorem latency_recording_amended_witness :
    (runIteration initialCameraState [] "yolov5n" [640, 640]
        ⟨1000, "img", 1000, .ok ⟨"frame_0", 1000, 1050, 1090, some []⟩,
          1120, 1120, true⟩).1.networkLatency = 1050 - 1000 ∧
    (runIteration initialCameraState [] "yolov5n" [640, 640]
        ⟨1000, "img", 1000, .ok ⟨"frame_0", 1000, 1050, 1090, some []⟩,
          1120, 1120, true⟩).1.serverLatency = 1090 - 1050 ∧
    (runIteration initialCameraState [] "yolov5n" [640, 640]
        ⟨1000, "img", 1000, .ok ⟨"frame_0", 1000, 1050, 1090, some []⟩,
          1120, 1120, true⟩).1.inferenceTime = 1090 - 1050 ∧
    (runIteration initialCameraState [] "yolov5n" [640, 640]
        ⟨1000, "img", 1000, .ok ⟨"frame_0", 1000, 1050, 1090, some []⟩,
          1120, 1120, true⟩).1.totalTime = 1120 - 1000 ∧
    totalLatOf ⟨"frame_0", 1000, 1050, 1090, some []⟩ 1120 = 1120 - 1000 :=
  latency_recording_amended initialCameraState [] "yolov5n" [640, 640]
    ⟨1000, "img", 1000, .ok ⟨"frame_0", 1000, 1050, 1090, some []⟩, 1120, 1120, true⟩
    ⟨"frame_0", 1000, 1050, 1090, some []⟩ rfl

/-- C2 (counterexample): a sample with `recv_ts < capture_ts` is not
rejected — with `capture_ts = 1000`, `recv_ts = 900` the code records
`networkLatency = -100` into component state. -/
theorem negative_latency_recorded_cex :
    (sendFrameToServer initialCameraState "img" "yolov5n" [640, 640] 1000
        (.ok ⟨"frame_0", 1000, 900, 950, some []⟩) 1100).state.networkLatency = -100 ∧
    ((-100 : Int) < 0) := by
  decide

/-- C2 (amended): samples with negative computed latency are recorded
like any other: on a parsed response the component stores the computed
(negative) value unconditionally; the component has no rejection path,
no rejection counter, and no percentile statistics. -/
theorem negative_latency_recording_amended (st : CameraState)
    (image modelName : String) (res : List Nat) (capNow : Int)
    (r : ServerResponse) (respNow : Int) (h : r.recv_ts < r.capture_ts) :
    (sendFrameToServer st image modelName res capNow (.ok r) respNow).state.networkLatency
        = r.recv_ts - r.capture_ts ∧
    (sendFrameToServer st image modelName res capNow (.ok r) respNow).state.networkLatency < 0 := by
  refine ⟨by simp [sendFrameToServer, recordLatencies, networkLatOf, bumpCounter], ?_⟩
  simp only [sendFrameToServer, recordLatencies, networkLatOf, bumpCounter]
  omega

/-- C2 (witness): the amended theorem at `capture_ts = 1000`,
`recv_ts = 900`. -/
theorem negative_latency_recording_amended_witness :
    (900 : Int) < 1000 ∧
    (sendFrameToServer initialCameraState "img" "yolov5n" [640, 640] 1000
        (.ok ⟨"frame_0", 1000, 900, 950, some []⟩) 1100).state.networkLatency = 900 - 1000 ∧
    (sendFrameToServer initialCameraState "img" "yolov5n" [640, 640] 1000
        (.ok ⟨"frame_0", 1000, 900, 950, some []⟩) 1100).state.networkLatency < 0 :=
  ⟨by decide,
    negative_latency_recording_amended initialCameraState "img" "yolov5n" [640, 640] 1000
      ⟨"frame_0", 1000, 900, 950, some []⟩ 1100 (by decide)⟩

/-- C6 (counterexample): a result carrying `capture_ts = 500` processed
after a result carrying `capture_ts = 600` has been rendered does
overwrite the overlay — the code performs no capture-timestamp
comparison. -/
theorem stale_result_overwrites_cex :
    (runIteration
        (runIteration initialCameraState [] "yolov5n" [640, 640]
          ⟨0, "i1", 600, .ok ⟨"frame_0", 600, 650, 690,
            some [⟨"person", 1, 0, 0, 1, 1⟩]⟩, 700, 700, true⟩).1
        (runIteration initialCameraState [] "yolov5n" [640, 640]
          ⟨0, "i1", 600, .ok ⟨"frame_0", 600, 650, 690,
            some [⟨"person", 1, 0, 0, 1, 1⟩]⟩, 700, 700, true⟩).2
        "yolov5n" [640, 640]
        ⟨700, "i2", 705, .ok ⟨"frame_1", 500, 760, 790,
          some [⟨"dog", 1, 0, 0, 1, 1⟩]⟩, 800, 800, true⟩).2
      = [⟨"dog", 1, 0, 0, 1, 1⟩] ∧
    ([(⟨"dog", 1, 0, 0, 1, 1⟩ : Detection)] ≠ [(⟨"person", 1, 0, 0, 1, 1⟩ : Detection)]) := by
  decide

/-- C6 (amended): the pipeline does not track the `capture_ts` of the
last rendered result; every non-null response with a `detections` field
is rendered unconditionally, whatever its `capture_ts`.  Out-of-order
arrivals are prevented only by the loop awaiting each response before
sending the next frame. -/
theorem render_unconditional_amended (st : CameraState) (ov : List Detection)
    (modelName : String) (res : List Nat) (inp : IterationInput)
    (r : ServerResponse) (ds : List Detection)
    (h1 : inp.outcome = .ok r) (h2 : r.detections = some ds) :
    (runIteration st ov modelName res inp).2 = ds := by
  simp [runIteration, runServerInference, sendFrameToServer, h1, h2]

/-- C6 (witness): the amended theorem at a concrete stale response. -/
theorem render_unconditional_amended_witness :
    (runIteration initialCameraState [⟨"person", 1, 0, 0, 1, 1⟩] "yolov5n" [640, 640]
        ⟨700, "i2", 705, .ok ⟨"frame_1", 500, 760, 790,
          some [⟨"dog", 1, 0, 0, 1, 1⟩]⟩, 800, 800, true⟩).2
      = [⟨"dog", 1, 0, 0, 1, 1⟩] :=
  render_unconditional_amended initialCameraState [⟨"person", 1, 0, 0, 1, 1⟩]
    "yolov5n" [640, 640]
    ⟨700, "i2", 705, .ok ⟨"frame_1", 500, 760, 790,
      some [⟨"dog", 1, 0, 0, 1, 1⟩]⟩, 800, 800, true⟩
    ⟨"frame_1", 500, 760, 790, some [⟨"dog", 1, 0, 0, 1, 1⟩]⟩
    [⟨"dog", 1, 0, 0, 1, 1⟩] rfl rfl

/-- C7 (counterexample): after a visibility loss while running followed
by the resume signal, live detection is still off — the handler never
sets the flag back, so capture does not resume. -/
theorem no_resume_on_visibility_cex :
    (handleVisibilityChange (handleVisibilityChange ⟨true, false⟩ true) false).liveDetection
      ≠ true := by
  decide

/-- C7 (amended): on visibility loss the live-detection flag is cleared
(the loop terminates — a stop, not a pause) and the webcam is unmounted
via the SSR flag, so no frames are captured; on visibility regain the
webcam remounts but the live-detection flag is left unchanged, so a
stopped loop stays stopped until the user explicitly restarts it. -/
theorem visibility_stop_amended (st : UiState) :
    handleVisibilityChange st true = ⟨false, true⟩ ∧
    handleVisibilityChange st false = ⟨st.liveDetection, false⟩ ∧
    handleVisibilityChange (handleVisibilityChange st true) false = ⟨false, false⟩ :=
  ⟨rfl, rfl, rfl⟩

/-- C9: `sendFrameToServer` is total at its interface: every failure
mode (encode throw, network error, timeout, non-OK HTTP status,
unparseable body) yields `null`; only a parsed response is returned.
The `try/catch` wrapper means no exception reaches the caller, so the
live-detection loop cannot be terminated by a per-request failure. -/
theorem sendFrameToServer_total (st : CameraState) (image modelName : String)
    (res : List Nat) (capNow : Int) (o : FetchOutcome) (respNow : Int) :
    (sendFrameToServer st image modelName res capNow o respNow).response
      = match o with
        | .ok r => some r
        | _ => none := by
  cases o <;> rfl

/-- C5: per-frame backend errors are contained: (i) on any failing
outcome the iteration leaves the overlay exactly as it was (the frame's
detections are suppressed, the last valid detections — possibly
none — stay displayed); (ii) the loop absorbs failures: as long as
capture succeeds, every scripted iteration runs, whatever the backend
outcomes. -/
theorem per_frame_error_containment :
    (∀ (st : CameraState) (ov : List Detection) (modelName : String) (res : List Nat)
        (inp : IterationInput), inp.outcome.isFailure = true →
        (runIteration st ov modelName res inp).2 = ov) ∧
    (∀ (st : CameraState) (ov : List Detection) (modelName : String) (res : List Nat)
        (inputs : List IterationInput), (∀ inp ∈ inputs, inp.captureOk = true) →
        (runLive modelName res st ov inputs).2.2 = inputs.length) := by
  constructor
  · intro st ov modelName res inp h
    rcases ho : inp.outcome with _ | _ | _ | s | _ | r <;>
      simp_all [FetchOutcome.isFailure, runIteration, runServerInference, sendFrameToServer]
  · intro st ov modelName res inputs h
    induction inputs generalizing st ov with
    | nil => simp [runLive]
    | cons inp rest ih =>
        have hc : inp.captureOk = true := h inp (List.mem_cons_self inp rest)
        simp only [runLive, hc, if_true, List.length_cons]
        rw [ih _ _ (fun x hx => h x (List.mem_cons_of_mem inp hx))]

/-- C5 (witness): a network error leaves a previously drawn detection
on the overlay, and a two-iteration script with one failure still runs
both iterations. -/
theorem per_frame_error_containment_witness :
    (runIteration initialCameraState [⟨"person", 1, 0, 0, 1, 1⟩] "yolov5n" [640, 640]
        ⟨0, "img", 5, .networkError, 10, 10, true⟩).2 = [⟨"person", 1, 0, 0, 1, 1⟩] ∧
    (runLive "yolov5n" [640, 640] initialCameraState []
        [⟨0, "img", 5, .networkError, 10, 10, true⟩,
          ⟨10, "img", 15, .ok ⟨"frame_1", 15, 20, 25, some []⟩, 30, 30, true⟩]).2.2 = 2 :=
  ⟨per_frame_error_containment.1 initialCameraState [⟨"person", 1, 0, 0, 1, 1⟩]
      "yolov5n" [640, 640] ⟨0, "img", 5, .networkError, 10, 10, true⟩ (by decide),
    per_frame_error_containment.2 initialCameraState [] "yolov5n" [640, 640]
      [⟨0, "img", 5, .networkError, 10, 10, true⟩,
        ⟨10, "img", 15, .ok ⟨"frame_1", 15, 20, 25, some []⟩, 30, 30, true⟩] (by decide)⟩

/-- C8: whenever the fetch is reached, the request body is exactly the
record `{frame_id, capture_ts, image_data, model_name, resolution}`
with `frame_id = "frame_" ++ counter` and `capture_ts` the `Date.now()`
taken when the frame is encoded and sent; the counter is incremented by
exactly one per send, and `frameIdOf` is injective, so frame ids are
unique and monotonically assigned across the session. -/
theorem wire_payload_and_frame_id :
    (∀ (st : CameraState) (image modelName : String) (res : List Nat) (capNow : Int)
        (o : FetchOutcome) (respNow : Int), o ≠ .encodeError →
        (sendFrameToServer st image modelName res capNow o respNow).sentPayload
            = some ⟨frameIdOf st.frameCounter, capNow, image, modelName, res⟩ ∧
        (sendFrameToServer st image modelName res capNow o respNow).state.frameCounter
            = st.frameCounter + 1) ∧
    Function.Injective frameIdOf := by
  refine ⟨?_, frameIdOf_inj⟩
  intro st image modelName res capNow o respNow h
  rcases o with _ | _ | _ | s | _ | r <;>
    simp_all [sendFrameToServer, mkPayload, bumpCounter, recordLatencies]

/-- C8 (witness): the payload of the first send, and distinctness of
two concrete frame ids. -/
theorem wire_payload_and_frame_id_witness :
    (sendFrameToServer initialCameraState "img" "yolov5n" [640, 640] 1000
        .networkError 0).sentPayload
      = some ⟨frameIdOf 0, 1000, "img", "yolov5n", [640, 640]⟩ ∧
    frameIdOf 3 ≠ frameIdOf 7 :=
  ⟨(wire_payload_and_frame_id.1 initialCameraState "img" "yolov5n" [640, 640] 1000
      .networkError 0 (by decide)).1,
    fun h => absurd (wire_payload_and_frame_id.2 h) (by decide)⟩

/-- C3 (counterexample): as written, `add_frame` raises
`AttributeError` on its first call — `__init__` assigns the deque
maxlen but never `self.max_size` — so offering `f1..f_{N+1}` (here
`N = 5`) neither evicts `f1` nor leaves the queue holding
`f2..f_{N+1}`. -/
theorem add_frame_missing_attr_cex :
    offerAll (FrameQueue.init 5 : FrameQueue Nat) [1, 2, 3, 4, 5, 6]
        = .error "AttributeError: FrameQueue object has no attribute max_size" ∧
    offerAll (FrameQueue.init 5 : FrameQueue Nat) [1, 2, 3, 4, 5, 6]
        ≠ .ok (⟨[2, 3, 4, 5, 6], 5, some 5, 1⟩ : FrameQueue Nat) :=
  ⟨rfl, fun h => (Except.noConfusion h : False)⟩

/-- C3 (amended): with the evidently intended `self.max_size = max_size`
assignment added (`initIntended`), offering `f1..f_{N+1}` into a queue
of capacity `N` evicts `f1`, increments the queue's own
`dropped_frames` counter to 1, and leaves the queue holding exactly
`f2..f_{N+1}`; however `add_frame` always returns `None` — the evicted
frame is not returned to the caller. -/
theorem drop_oldest_amended {α : Type} (N : Nat) (fs : List α)
    (hN : 0 < N) (hlen : fs.length = N + 1) :
    offerAll (FrameQueue.initIntended N) fs
        = .ok ⟨fs.tail, N, some N, 1⟩ ∧
    ∀ (q : FrameQueue α) (f : α) (r : Option α × FrameQueue α),
        q.add_frame f = .ok r → r.1 = none := by
  constructor
  · have hne : fs ≠ [] := by
      intro h
      rw [h] at hlen
      simp at hlen
    have hfs : fs.dropLast ++ [fs.getLast hne] = fs := List.dropLast_append_getLast hne
    have hys : fs.dropLast.length = N := by
      rw [List.length_dropLast, hlen]
      omega
    obtain ⟨y, t, hyt⟩ : ∃ y t, fs.dropLast = y :: t := by
      cases hd : fs.dropLast with
      | nil =>
          rw [hd] at hys
          simp at hys
          omega
      | cons y t => exact ⟨y, t, rfl⟩
    have ht : t.length + 1 = N := by
      rw [hyt] at hys
      simpa using hys
    conv_lhs => rw [← hfs]
    rw [offerAll_append]
    rw [show FrameQueue.initIntended (α := α) N = ⟨[], N, some N, 0⟩ from rfl]
    rw [offerAll_fill N fs.dropLast [] 0 (by simp [hys])]
    simp only [List.nil_append, hyt]
    have hfull : N ≤ (y :: t).length := by
      simp only [List.length_cons]
      omega
    have htrim : dequeAppend N t (fs.getLast hne) = t ++ [fs.getLast hne] :=
      dequeAppend_no_trim N t (fs.getLast hne) (by omega)
    simp only [offerAll, FrameQueue.add_frame, if_pos hfull, htrim]
    have htail : fs.tail = t ++ [fs.getLast hne] := by
      conv_lhs => rw [← hfs, hyt]
      simp
    rw [htail]
  · intro q f r h
    unfold FrameQueue.add_frame at h
    split at h
    · exact Except.noConfusion h
    · split at h
      · split at h
        · exact Except.noConfusion h
        · injection h with h2
          rw [← h2]
      · injection h with h2
        rw [← h2]

/-- C3 (witness): the amended theorem at `N = 2` with frames
`[10, 20, 30]`, plus a concrete `add_frame` call whose Python return
value is `None`. -/
theorem drop_oldest_amended_witness :
    offerAll (FrameQueue.initIntended 2 : FrameQueue Nat) [10, 20, 30]
        = .ok ⟨[20, 30], 2, some 2, 1⟩ ∧
    ((none : Option Nat), (⟨[10], 2, some 2, 0⟩ : FrameQueue Nat)).1 = none :=
  ⟨(drop_oldest_amended 2 [10, 20, 30] (by decide) (by decide)).1,
    (drop_oldest_amended 2 [10, 20, 30] (by decide) (by decide)).2
      (FrameQueue.initIntended 2) 10 (none, ⟨[10], 2, some 2, 0⟩) rfl⟩

/-- C4: for the spec-modelled queue, after enqueuing `f1, f2, f3` into
an empty queue of capacity `N ≥ 3` (no offer drops anything), a single
`takeLatest` returns `f3`, empties the queue, and counts the two
skipped frames `f1, f2` as implicit drops; and `takeLatest` on any
empty queue returns nil with the queue unchanged. -/
theorem takeLatest_freshness {α : Type} (N : Nat) (hN : 3 ≤ N) (f1 f2 f3 : α) :
    ((((SpecFrameQueue.empty N).offer f1).2.offer f2).2.offer f3).2.takeLatest
        = (some f3, ⟨[], N, 2⟩) ∧
    ((SpecFrameQueue.empty (α := α) N).offer f1).1 = none ∧
    (((SpecFrameQueue.empty N).offer f1).2.offer f2).1 = none ∧
    ((((SpecFrameQueue.empty N).offer f1).2.offer f2).2.offer f3).1 = none ∧
    ∀ q : SpecFrameQueue α, q.queue = [] → q.takeLatest = (none, q) := by
  have h0 : ¬ (N ≤ ([] : List α).length) := by simp; omega
  have h1 : ¬ (N ≤ ([f1] : List α).length) := by simp; omega
  have h2 : ¬ (N ≤ ([f1, f2] : List α).length) := by simp; omega
  have e1 : (SpecFrameQueue.empty (α := α) N).offer f1 = (none, ⟨[f1], N, 0⟩) := by
    simp [SpecFrameQueue.empty, SpecFrameQueue.offer, if_neg h0]
  have e2 : ((⟨[f1], N, 0⟩ : SpecFrameQueue α)).offer f2 = (none, ⟨[f1, f2], N, 0⟩) := by
    simp [SpecFrameQueue.offer, if_neg h1]
    omega
  have e3 : ((⟨[f1, f2], N, 0⟩ : SpecFrameQueue α)).offer f3
      = (none, ⟨[f1, f2, f3], N, 0⟩) := by
    simp [SpecFrameQueue.offer, if_neg h2]
    omega
  refine ⟨?_, ?_, ?_, ?_, ?_⟩
  · rw [e1, e2, e3]
    simp [SpecFrameQueue.takeLatest]
  · rw [e1]
  · rw [e1, e2]
  · rw [e1, e2, e3]
  · intro q h
    unfold SpecFrameQueue.takeLatest
    rw [h]
    rfl

/-- C4 (witness): the theorem at capacity 5 with frames 1, 2, 3. -/
theorem takeLatest_freshness_witness :
    ((((SpecFrameQueue.empty 5).offer 1).2.offer 2).2.offer 3).2.takeLatest
        = (some 3, (⟨[], 5, 2⟩ : SpecFrameQueue Nat)) :=
  (takeLatest_freshness 5 (by decide) 1 2 3).1

theorem maxInFlightAux_trace_le (inputs : List IterationInput) :
    ∀ (i mx : Nat), mx ≤ 1 → maxInFlightAux 0 mx (liveTraceFrom i inputs) ≤ 1 := by
  induction inputs with
  | nil =>
      intro i mx h
      simpa [liveTraceFrom, maxInFlightAux] using h
  | cons inp rest ih =>
      intro i mx h
      by_cases hc : inp.captureOk
      · simp only [liveTraceFrom, if_pos hc, iterationEvents]
        rcases ho : inp.outcome with _ | _ | _ | s | _ | r
        · simp only [List.nil_append, List.cons_append, maxInFlightAux]
          exact ih (i + 1) mx h
        · simp [maxInFlightAux, drawsOverlay]
          exact ih (i + 1) (max mx 1) (by omega)
        · simp [maxInFlightAux, drawsOverlay]
          exact ih (i + 1) (max mx 1) (by omega)
        · simp [maxInFlightAux, drawsOverlay]
          exact ih (i + 1) (max mx 1) (by omega)
        · simp [maxInFlightAux, drawsOverlay]
          exact ih (i + 1) (max mx 1) (by omega)
        · cases hd : r.detections with
          | none =>
              simp [maxInFlightAux, drawsOverlay, hd]
              exact ih (i + 1) (max mx 1) (by omega)
          | some ds =>
              simp [maxInFlightAux, drawsOverlay, hd]
              exact ih (i + 1) (max mx 1) (by omega)
      · simp only [liveTraceFrom, if_neg hc]
        simpa [maxInFlightAux] using h

theorem drawnIndices_trace_sorted (inputs : List IterationInput) :
    ∀ i, List.Chain' (fun a b => a < b) (drawnIndices (liveTraceFrom i inputs)) ∧
      ∀ x ∈ drawnIndices (liveTraceFrom i inputs), i ≤ x := by
  induction inputs with
  | nil =>
      intro i
      simp [liveTraceFrom, drawnIndices]
  | cons inp rest ih =>
      intro i
      by_cases hc : inp.captureOk
      · simp only [liveTraceFrom, if_pos hc, drawnIndices, List.filterMap_append]
        have hblock : (iterationEvents i inp).filterMap (fun e =>
            match e with
            | .drew j => some j
            | _ => none) = if drawsOverlay inp.outcome then [i] else [] := by
          simp only [iterationEvents]
          rcases ho : inp.outcome with _ | _ | _ | s | _ | r
          · simp [drawsOverlay]
          · simp [drawsOverlay]
          · simp [drawsOverlay]
          · simp [drawsOverlay]
          · simp [drawsOverlay]
          · cases hd : r.detections <;> simp [drawsOverlay, hd]
        rw [hblock]
        have hrest := ih (i + 1)
        by_cases hdr : drawsOverlay inp.outcome
        · simp only [if_pos hdr, List.singleton_append]
          constructor
          · rw [List.chain'_cons']
            refine ⟨?_, hrest.1⟩
            intro b hb
            have hbmem : b ∈ drawnIndices (liveTraceFrom (i + 1) rest) :=
              List.mem_of_mem_head? hb
            have := hrest.2 b hbmem
            omega
          · intro x hx
            rcases List.mem_cons.mp hx with hx1 | hx2
            · omega
            · have := hrest.2 x hx2
              omega
        · simp only [if_neg hdr, List.nil_append]
          refine ⟨hrest.1, ?_⟩
          intro x hx
          have := hrest.2 x hx
          omega
      · simp [liveTraceFrom, if_neg hc, drawnIndices]

/-- C10: in the live-detection loop at most one inference request is
ever in flight — each request settles (the loop awaits it) before the
next frame is captured — and overlay updates are applied in strictly
increasing frame-capture order, so no backlog of in-flight frames can
form. -/
theorem single_request_in_flight (inputs : List IterationInput) :
    maxInFlight (liveTrace inputs) ≤ 1 ∧
    List.Chain' (fun a b => a < b) (drawnIndices (liveTrace inputs)) :=
  ⟨maxInFlightAux_trace_le inputs 0 0 (by omega),
    (drawnIndices_trace_sorted inputs 0).1⟩

end ObjDet
